import Mathlib

/-!
# Verification of the estrus-log python-service pipeline

Shallow embedding, in Lean 4, of the pure logic of the `python-service`
scripts of the estrus-log repository: label parsing and dataset splitting
(`split_data.py`), zip unpacking and HEIC→JPEG conversion (`unpack_zips.py`),
mask/box-based cropping (`segment.py`, `main.py`), the SAM3 cloud client
(`sam3_cloud.py`), the FastAPI endpoints (`main.py`), the ingestion loop
(`ingest.py`) and the classifier call sites (`eval.py`, `train_classifier.py`,
`sam3_modal.py`).

Python floats are modelled as exact rationals (`ℚ`), images and ML models as
abstract oracles, and exceptions as explicit `Except`/`Option` outcomes.
-/

namespace EstrusLog

/-! ## Python string primitives -/

/-- Python `str.upper()` (ASCII model). -/
def pyUpper (s : String) : String := String.mk (s.toList.map Char.toUpper)

/-- Python `str.lower()` (ASCII model). -/
def pyLower (s : String) : String := String.mk (s.toList.map Char.toLower)

/-- Whether the first character list is an initial segment of the second. -/
def listIsPre : List Char → List Char → Bool
  | [], _ => true
  | _ :: _, [] => false
  | a :: as, b :: bs => a = b && listIsPre as bs

/-- Python `str.startswith`. -/
def pyStartswith (s pre : String) : Bool := listIsPre pre.toList s.toList

/-- Python `str.endswith`. -/
def pyEndswith (s suf : String) : Bool :=
  listIsPre suf.toList.reverse s.toList.reverse

/-- Python `str.capitalize()`: first character upper-cased, the rest lower-cased. -/
def pyCapitalize (s : String) : String :=
  match s.toList with
  | [] => ""
  | c :: rest => String.mk (Char.toUpper c :: rest.map Char.toLower)

/-- Last index at which `c` occurs in the character list, if any
(Python `str.rfind`). -/
def lastIdxOf (c : Char) : List Char → Option Nat
  | [] => none
  | a :: rest =>
    match lastIdxOf c rest with
    | some i => some (i + 1)
    | none => if a = c then some 0 else none

/-- The root part of `os.path.splitext` for a bare file name (no directory
separators): everything before the last dot, except that a name whose
characters before that dot are all dots is returned whole. -/
def splitextRoot (p : String) : String :=
  match lastIdxOf '.' p.toList with
  | none => p
  | some i =>
    if (p.toList.take i).any (fun c => c ≠ '.') then String.mk (p.toList.take i) else p

/-! ## `split_data.py`: `parse_label` -/

/-- The set of valid estrus stages (`valid_stages` in `split_data.py`). -/
def valid_stages : List String := ["PROESTRUS", "ESTRUS", "METESTRUS", "DIESTRUS"]

/-- The typo fix in `parse_label`: `"PROESTTRUS"` is corrected to
`"PROESTRUS"`, every other string is unchanged. -/
def fixTypo (s : String) : String := if s = "PROESTTRUS" then "PROESTRUS" else s

/-- The loop body of `parse_label`: return the first part whose upper-cased,
typo-fixed form is a valid stage, else `"UNKNOWN"`. -/
def parse_label_go : List String → String
  | [] => "UNKNOWN"
  | p :: rest =>
    let upper_part := fixTypo (pyUpper p)
    if valid_stages.contains upper_part then upper_part else parse_label_go rest

/-- `parse_label` from `split_data.py`: replace `"."` by `"_"`, split on
`"_"`, and scan the parts for a valid stage. -/
def parse_label (filename : String) : String :=
  parse_label_go ((filename.replace "." "_").splitOn "_")

/-! ## `split_data.py`: `split_dataset` per-label split -/

/-- Python `int()` applied to a (rational-modelled) float: truncation toward
zero. -/
def pyIntTrunc (q : ℚ) : Int := if q < 0 then -⌊-q⌋ else ⌊q⌋

/-- Effective index for a Python slice endpoint `k` on a list of length `n`:
negative indices count from the end and clamp at `0`. -/
def pySliceIdx (n : Nat) (k : Int) : Nat :=
  if 0 ≤ k then k.toNat else n - (-k).toNat

/-- Python `items[:k]`. -/
def pySliceTo (l : List α) (k : Int) : List α := l.take (pySliceIdx l.length k)

/-- Python `items[k:]`. -/
def pySliceFrom (l : List α) (k : Int) : List α := l.drop (pySliceIdx l.length k)

/-- The per-label split of `split_dataset` (`split_data.py` lines 67–77),
applied to the already-shuffled item list: `split_idx = int(len(items) *
split_ratio)`, train items are `items[:split_idx]`, test items are
`items[split_idx:]`. -/
def splitLabelItems (items : List α) (split_ratio : ℚ) : List α × List α :=
  let split_idx := pyIntTrunc ((items.length : ℚ) * split_ratio)
  (pySliceTo items split_idx, pySliceFrom items split_idx)

/-! ## Crop boxes: padding and clamping

`segment.py` (lines 67–76) pads a float detection box, `main.py`
`segment_with_sam2` (lines 129–139) pads an integer mask box; both use
`padding = 20`, `max(0, lo - padding)` and `min(size, hi + padding)`. -/

/-- A box `(xmin, ymin, xmax, ymax)` with float (rational) coordinates, as
produced by OWLv2 detection (`box.tolist()` in `segment.py`). -/
structure RatBox where
  xmin : ℚ
  ymin : ℚ
  xmax : ℚ
  ymax : ℚ
  deriving DecidableEq, Repr

/-- A box with integer coordinates, as derived from a boolean mask in
`segment_with_sam2`. -/
structure IntBox where
  xmin : Int
  ymin : Int
  xmax : Int
  ymax : Int
  deriving DecidableEq, Repr

/-- The pad-and-clamp step of `crop_genitals` (`segment.py` lines 69–74):
`padding = 20`, each low edge is `max(0, lo - padding)`, each high edge is
`min(size, hi + padding)`. -/
def padClampBoxQ (w h : ℚ) (b : RatBox) : RatBox :=
  let padding : ℚ := 20
  { xmin := max 0 (b.xmin - padding)
    ymin := max 0 (b.ymin - padding)
    xmax := min w (b.xmax + padding)
    ymax := min h (b.ymax + padding) }

/-- The identical pad-and-clamp step on integer coordinates
(`main.py` lines 133–137). -/
def padClampBoxInt (w h : Int) (b : IntBox) : IntBox :=
  let padding : Int := 20
  { xmin := max 0 (b.xmin - padding)
    ymin := max 0 (b.ymin - padding)
    xmax := min w (b.xmax + padding)
    ymax := min h (b.ymax + padding) }

/-- A rational box is well-formed for a `w × h` image when it is ordered and
lies inside the image. -/
def WellFormedQ (w h : ℚ) (b : RatBox) : Prop :=
  0 ≤ b.xmin ∧ b.xmin ≤ b.xmax ∧ b.xmax ≤ w ∧ 0 ≤ b.ymin ∧ b.ymin ≤ b.ymax ∧ b.ymax ≤ h

instance (w h : ℚ) (b : RatBox) : Decidable (WellFormedQ w h b) := by
  unfold WellFormedQ; infer_instance

/-- An integer box is well-formed for a `w × h` image when it is ordered and
lies inside the image. -/
def WellFormedInt (w h : Int) (b : IntBox) : Prop :=
  0 ≤ b.xmin ∧ b.xmin ≤ b.xmax ∧ b.xmax ≤ w ∧ 0 ≤ b.ymin ∧ b.ymin ≤ b.ymax ∧ b.ymax ≤ h

instance (w h : Int) (b : IntBox) : Decidable (WellFormedInt w h b) := by
  unfold WellFormedInt; infer_instance

/-! ## `main.py` `segment_with_sam2`: bounding box of a boolean mask

The mask is a 2-D boolean array, modelled row-major as `List (List Bool)`. -/

/-- `np.any(mask, axis=1)`: one boolean per row. -/
def rowsAny (mask : List (List Bool)) : List Bool :=
  mask.map (fun row => row.any id)

/-- `np.any(mask, axis=0)` on an `h × w` mask: one boolean per column. -/
def colsAny (w : Nat) (mask : List (List Bool)) : List Bool :=
  (List.range w).map (fun j => mask.any (fun row => row.getD j false))

/-- `np.where(v)[0][0]`: index of the first `true`, if any. -/
def firstTrue : List Bool → Option Nat
  | [] => none
  | b :: rest => if b then some 0 else (firstTrue rest).map (· + 1)

/-- `np.where(v)[0][-1]`: index of the last `true`, if any. -/
def lastTrue : List Bool → Option Nat
  | [] => none
  | b :: rest =>
    match lastTrue rest with
    | some i => some (i + 1)
    | none => if b then some 0 else none

/-- The mask-to-crop-box computation of `segment_with_sam2` (`main.py` lines
126–139) for a `w × h` image: row/column occupancy, first/last occupied
indices, then pad-and-clamp. Returns `none` when the mask is all-false
(the code then falls through and returns `None`). -/
def sam2CropBox (w h : Nat) (mask : List (List Bool)) : Option IntBox :=
  let rows := rowsAny mask
  let cols := colsAny w mask
  if rows.any id && cols.any id then
    match firstTrue rows, lastTrue rows, firstTrue cols, lastTrue cols with
    | some ymin, some ymax, some xmin, some xmax =>
      some (padClampBoxInt w h ⟨(xmin : Int), (ymin : Int), (xmax : Int), (ymax : Int)⟩)
    | _, _, _, _ => none
  else none

/-! ## Abstract image operations

Images and the pretrained models are opaque to the control flow being
verified; they are modelled as oracles. -/

/-- PIL image operations used by the scripts. -/
structure ImgOps (Img : Type) where
  cropQ : Img → RatBox → Img
  convertRGB : Img → Img

/-- `np.argmax` over a list of scores: index of the first maximal element. -/
def argmaxIdx : List ℚ → Nat
  | [] => 0
  | s :: rest =>
    match rest with
    | [] => 0
    | _ :: _ =>
      let j := argmaxIdx rest
      if rest.getD j 0 > s then j + 1 else 0

/-! ## `segment.py` `crop_genitals`: per-file loop -/

/-- Outcome of the fallible part of one loop iteration of `crop_genitals`:
either some statement in the `try` block raised, or the image was loaded and
OWLv2 post-processing produced a list of `(score, box)` detections for a
`w × h` image. -/
inductive OwlOutcome (Img : Type) where
  | raised (msg : String)
  | detections (image : Img) (w h : ℚ) (results : List (ℚ × RatBox))

/-- What one iteration of the `crop_genitals` loop does with a file
(`segment.py` lines 41–84). -/
inductive FileAction (Img : Type) where
  | savedFile (out : Img) (name : String)
  | printedError (msg : String)

/-- One iteration of the `crop_genitals` loop: on a detection, crop to the
padded best box and save; on no detection, save the original image; on an
exception, print the error (and fall through to the next file). -/
def cropGenitalsFile (ops : ImgOps Img) (fname : String) :
    OwlOutcome Img → FileAction Img
  | .raised msg => .printedError ("Error processing " ++ fname ++ ": " ++ msg)
  | .detections image w h results =>
    if results.length > 0 then
      let best_idx := argmaxIdx (results.map Prod.fst)
      let box := (results.map Prod.snd).getD best_idx ⟨0, 0, 0, 0⟩
      let cropped_img := ops.cropQ image (padClampBoxQ w h box)
      .savedFile cropped_img fname
    else
      .savedFile image fname

/-- The whole per-label loop of `crop_genitals`: every file produces exactly
one action and the loop never exits early. -/
def cropGenitalsLoop (ops : ImgOps Img) (files : List (String × OwlOutcome Img)) :
    List (FileAction Img) :=
  files.map (fun f => cropGenitalsFile ops f.1 f.2)

/-! ## `sam3_cloud.py` `segment_with_sam3_cloud` -/

/-- Result of `response.json()`-based parsing: either the parse raises, or it
yields a dict, modelled by its `"image"` value (present/absent, and whether
base64-decoding plus `Image.open` succeeds), its `"error"` value, and its
printed representation. -/
inductive Sam3Json (Img : Type) where
  | parseFail
  | dict (imageVal : Option (Option Img)) (errorVal : Option String) (rep : String)

/-- An HTTP response from the SAM3 endpoint, as observed by the client:
status code, the result of `Image.open` on the raw body, the result of JSON
parsing, and the body text. -/
structure Sam3Response (Img : Type) where
  status : Nat
  contentImage : Except String Img
  json : Sam3Json Img
  text : String

/-- Outcome of the single `requests.post` in `segment_with_sam3_cloud`:
an exception before the request is issued (JPEG re-encoding of the input),
a timeout, a connection error, any other exception, or a response. -/
inductive Sam3PostOutcome (Img : Type) where
  | encodeException (msg : String)
  | timeoutExc
  | connectionError
  | otherException (msg : String)
  | response (r : Sam3Response Img)

/-- The environment `segment_with_sam3_cloud` runs in: the two configuration
variables and what the network would do for the (single) POST. -/
structure Sam3Env (Img : Type) where
  endpointUrl : Option String
  hfToken : Option String
  post : Sam3PostOutcome Img

/-- `segment_with_sam3_cloud` (`sam3_cloud.py` lines 39–130). Returns the
`(segmented_image, error_message)` pair together with the number of POST
requests issued. Every exception path of the source is an explicit branch, so
the Lean function is total: no path raises to the caller. -/
def segment_with_sam3_cloud (timeout : Nat) (env : Sam3Env Img) :
    (Option Img × Option String) × Nat :=
  match env.endpointUrl with
  | none => ((none, some "SAM3_ENDPOINT_URL not configured"), 0)
  | some _ =>
  match env.hfToken with
  | none => ((none, some "HF_TOKEN not configured"), 0)
  | some _ =>
  match env.post with
  | .encodeException msg => ((none, some ("SAM3 request failed: " ++ msg)), 0)
  | .timeoutExc => ((none, some ("SAM3 request timed out after " ++ toString timeout ++ "s")), 1)
  | .connectionError => ((none, some "Failed to connect to SAM3 endpoint"), 1)
  | .otherException msg => ((none, some ("SAM3 request failed: " ++ msg)), 1)
  | .response r =>
    if r.status = 200 then
      match r.contentImage with
      | .ok img => ((some img, none), 1)
      | .error e =>
        match r.json with
        | .parseFail => ((none, some ("Failed to parse response: " ++ e)), 1)
        | .dict imageVal _ rep =>
          match imageVal with
          | some (some img) => ((some img, none), 1)
          | some none => ((none, some ("Failed to parse response: " ++ e)), 1)
          | none => ((none, some ("Unexpected response format: " ++ rep)), 1)
    else if r.status = 503 then
      ((none, some "SAM3 endpoint is still initializing"), 1)
    else if r.status = 404 then
      ((none, some "No segmentation mask found for the given prompt"), 1)
    else
      match r.json with
      | .dict _ errorVal _ =>
        ((none, some ("SAM3 error (" ++ toString r.status ++ "): " ++ errorVal.getD "Unknown error")), 1)
      | .parseFail =>
        ((none, some ("SAM3 error (" ++ toString r.status ++ "): " ++ r.text.take 200)), 1)

/-! ## `main.py`: FastAPI endpoints -/

/-- The pretrained models behind the endpoints, as semantic oracles:
`decode` is `Image.open(...).convert("RGB")` on the uploaded bytes (`none`
when it raises), `segment` is `segment_image`, `embed` is
`get_bioclip_embedding`, and the two probe functions are the loaded
classifier's `predict`/`predict_proba` composed with the label encoder. -/
structure MLOracles (Img : Type) where
  decode : List Nat → Option Img
  segment : Img → Option Img
  embed : Img → List ℚ
  probeStage : List ℚ → String
  probeProba : List ℚ → List (String × ℚ)

/-- Which globals are loaded and how the server is configured. -/
structure ServerState where
  bioclipModel : Bool
  bioclipPreprocess : Bool
  useLinearProbe : Bool
  classifierLoaded : Bool

/-- FastAPI `HTTPException(status_code, detail)`. -/
structure HTTPException where
  status_code : Nat
  detail : String
  deriving DecidableEq, Repr

/-- The pieces of work an endpoint performs on the uploaded file, in order. -/
inductive StepEff where
  | readFile
  | decodeImage
  | segmentCall
  | embedCall
  | classifyCall
  deriving DecidableEq, Repr

/-- `classify_with_linear_probe` (`main.py` lines 281–303): predicted stage
and per-class confidence scores, class names capitalized. -/
def classify_with_linear_probe (o : MLOracles Img) (embedding : List ℚ) :
    String × List (String × ℚ) :=
  (pyCapitalize (o.probeStage embedding),
   (o.probeProba embedding).map (fun p => (pyCapitalize p.1, p.2)))

/-- The `/embed` endpoint `generate_embedding` (`main.py` lines 324–344),
returning the HTTP result together with the work performed on the file. -/
def generate_embedding (st : ServerState) (o : MLOracles Img) (contents : List Nat) :
    Except HTTPException (List ℚ) × List StepEff :=
  if !st.bioclipModel || !st.bioclipPreprocess then
    (.error ⟨503, "BioCLIP model not initialized"⟩, [])
  else
    match o.decode contents with
    | none => (.error ⟨500, "Error processing image"⟩, [.readFile, .decodeImage])
    | some image =>
      let cropped_image := o.segment image
      let final_image :=
        match cropped_image with
        | some c => c
        | none => image
      (.ok (o.embed final_image),
       [.readFile, .decodeImage, .segmentCall, .embedCall])

/-- Response of the `/classify` endpoint. -/
structure ClassificationResponse where
  estrus_stage : String
  confidence_scores : List (String × ℚ)
  cropped : Bool
  deriving DecidableEq, Repr

/-- The `/classify` endpoint `classify_image` (`main.py` lines 347–387),
returning the HTTP result together with the work performed on the file. -/
def classify_image (st : ServerState) (o : MLOracles Img) (contents : List Nat) :
    Except HTTPException ClassificationResponse × List StepEff :=
  if !st.bioclipModel || !st.bioclipPreprocess then
    (.error ⟨503, "BioCLIP model not initialized"⟩, [])
  else if !st.useLinearProbe then
    (.error ⟨400, "Linear Probe disabled. Use /embed endpoint for k-NN classification."⟩, [])
  else if !st.classifierLoaded then
    (.error ⟨503, "Classifier not loaded. Run train_classifier.py first."⟩, [])
  else
    match o.decode contents with
    | none => (.error ⟨500, "Error classifying image"⟩, [.readFile, .decodeImage])
    | some image =>
      let cropped_image := o.segment image
      let was_cropped := cropped_image.isSome
      let final_image := cropped_image.getD image
      let embedding := o.embed final_image
      let result := classify_with_linear_probe o embedding
      (.ok ⟨result.1, result.2, was_cropped⟩,
       [.readFile, .decodeImage, .segmentCall, .embedCall, .classifyCall])

/-! ## `ingest.py`: per-image ingestion -/

/-- A row of the `reference_images` table. -/
structure IngestRow where
  label : String
  embedding : List ℚ
  image_path : String
  filename : String
  deriving DecidableEq, Repr

/-- The per-file body of the ingestion loop (`ingest.py` lines 95–110):
`get_embedding` returning `None` (an exception was caught) — or an empty,
falsy embedding — inserts no row; otherwise one row is built for the file. -/
def ingestFileRow (label fname fpath : String) (embedding : Option (List ℚ)) :
    Option IngestRow :=
  match embedding with
  | none => none
  | some e => if e = [] then none else some ⟨label, e, fpath, fname⟩

/-! ## `unpack_zips.py` `process_zips` -/

/-- Outcome of `Image.open` on an extracted file: the image and its PIL mode,
or an exception. -/
inductive ConvertOutcome (Img : Type) where
  | opened (img : Img) (mode : String)
  | raised (msg : String)

/-- A JPEG written by `process_zips`: target subdirectory, file name, and
content. -/
structure SavedJpeg (Img : Type) where
  dir : String
  name : String
  content : Img

/-- The extensions accepted by `process_zips` (`unpack_zips.py` line 34). -/
def imageExts : List String := [".heic", ".jpg", ".jpeg", ".png"]

/-- `file.lower().endswith((".heic", ".jpg", ".jpeg", ".png"))`. -/
def isConvertibleImage (file : String) : Bool :=
  imageExts.any (fun e => pyEndswith (pyLower file) e)

/-- One file of one zip in `process_zips` (`unpack_zips.py` lines 32–49):
skip `._` resource forks and non-image extensions; otherwise convert to RGB
when needed and save under the stem plus `.jpg`; a raised conversion is
reported and produces no file. -/
def processZipEntry (ops : ImgOps Img) (label file : String)
    (oc : ConvertOutcome Img) : Option (SavedJpeg Img) :=
  if pyStartswith file "._" then none
  else if isConvertibleImage file then
    match oc with
    | .raised _ => none
    | .opened img mode =>
      let rgb := if mode ≠ "RGB" then ops.convertRGB img else img
      let new_name := splitextRoot file ++ ".jpg"
      some ⟨label, new_name, rgb⟩
  else none

/-- All files extracted from one zip: the target subdirectory is the
upper-cased zip basename (`unpack_zips.py` line 16). -/
def processZipFiles (ops : ImgOps Img) (zip_name : String)
    (entries : List (String × ConvertOutcome Img)) : List (SavedJpeg Img) :=
  let label := pyUpper (splitextRoot zip_name)
  entries.filterMap (fun e => processZipEntry ops label e.1 e.2)

/-! ## Classifier call sites (`eval.py`, `train_classifier.py`, `sam3_modal.py`) -/

/-- A call into an external classifier backend. -/
inductive MLCall where
  | sklearnFit (estimator : String)
  | sklearnPredict (estimator : String)
  | supabaseRpc (fn : String)
  deriving DecidableEq, Repr

/-- Whether a backend call is a call into scikit-learn. -/
def MLCall.isSklearn : MLCall → Bool
  | .sklearnFit _ => true
  | .sklearnPredict _ => true
  | .supabaseRpc _ => false

/-- Outcome of the `match_reference_images` Supabase RPC in
`classify_with_knn`: an exception, or the labels of the returned neighbor
rows. -/
inductive RpcOutcome where
  | raised (msg : String)
  | rows (labels : List String)

/-- One voting step of `classify_with_knn`: Python dict insertion-order
semantics of `votes[label] = votes.get(label, 0) + 1`. -/
def addVote (votes : List (String × Nat)) (label : String) : List (String × Nat) :=
  if votes.any (fun v => v.1 = label) then
    votes.map (fun v => if v.1 = label then (v.1, v.2 + 1) else v)
  else
    votes ++ [(label, 1)]

/-- Python `max(votes, key=votes.get)`: the first key attaining the maximal
count, in insertion order. -/
def maxVoteKey (votes : List (String × Nat)) : String :=
  match votes with
  | [] => ""
  | v :: rest => (rest.foldl (fun best x => if x.2 > best.2 then x else best) v).1

/-- `classify_with_knn` (`eval.py` lines 60–85): neighbor search is one
Supabase RPC, the majority vote is computed locally in Python; the returned
trace records the backend calls made. -/
def classify_with_knn (rpc : RpcOutcome) : String × List MLCall :=
  match rpc with
  | .raised _ => ("ERROR", [.supabaseRpc "match_reference_images"])
  | .rows neighbors =>
    if neighbors = [] then ("UNKNOWN", [.supabaseRpc "match_reference_images"])
    else
      let votes := neighbors.foldl (fun vs n => addVote vs (pyUpper n)) []
      (maxVoteKey votes, [.supabaseRpc "match_reference_images"])

/-- The backend calls of `train_classifier` (`train_classifier.py` lines
89–113), in source order: `LabelEncoder.fit_transform`,
`LogisticRegression.fit`, `LogisticRegression.score` (which predicts). -/
def train_classifier_calls : List MLCall :=
  [.sklearnFit "LabelEncoder", .sklearnFit "LogisticRegression",
   .sklearnPredict "LogisticRegression"]

/-- The backend calls of `evaluate_method` inside `run_comparison_eval`
(`sam3_modal.py` lines 777–796), in source order: `LabelEncoder`, k-NN fit
and predict, logistic-regression fit and predict. -/
def evaluate_method_calls : List MLCall :=
  [.sklearnFit "LabelEncoder", .sklearnFit "KNeighborsClassifier",
   .sklearnPredict "KNeighborsClassifier", .sklearnFit "LogisticRegression",
   .sklearnPredict "LogisticRegression"]

/-! ## Lemmas about `firstTrue`, `lastTrue` and the occupancy vectors -/

lemma getD_lt_length {l : List Bool} {k : Nat} (h : l.getD k false = true) :
    k < l.length := by
  by_contra hk
  rw [List.getD_eq_default _ _ (Nat.le_of_not_lt hk)] at h
  exact Bool.false_ne_true h

lemma any_of_getD {l : List Bool} {k : Nat} (h : l.getD k false = true) :
    l.any id = true := by
  induction l generalizing k with
  | nil => simp [List.getD] at h
  | cons b rest ih =>
    cases k with
    | zero =>
      simp only [List.getD_cons_zero] at h
      simp [h]
    | succ m =>
      simp only [List.getD_cons_succ] at h
      simp [ih h]

lemma firstTrue_exists_of_any {l : List Bool} (h : l.any id = true) :
    ∃ i, firstTrue l = some i := by
  induction l with
  | nil => simp at h
  | cons b rest ih =>
    by_cases hb : b = true
    · exact ⟨0, by simp [firstTrue, hb]⟩
    · have hrest : rest.any id = true := by
        rw [List.any_cons] at h
        cases b with
        | true => exact absurd rfl hb
        | false => simpa using h
      obtain ⟨i, hi⟩ := ih hrest
      exact ⟨i + 1, by simp [firstTrue, hb, hi]⟩

lemma lastTrue_exists_of_any {l : List Bool} (h : l.any id = true) :
    ∃ i, lastTrue l = some i := by
  induction l with
  | nil => simp at h
  | cons b rest ih =>
    cases hrest : lastTrue rest with
    | some i => exact ⟨i + 1, by simp [lastTrue, hrest]⟩
    | none =>
      by_cases hb : b = true
      · exact ⟨0, by simp [lastTrue, hrest, hb]⟩
      · have hrest' : rest.any id = true := by
          rw [List.any_cons] at h
          cases b with
          | true => exact absurd rfl hb
          | false => simpa using h
        obtain ⟨i, hi⟩ := ih hrest'
        rw [hi] at hrest
        exact absurd hrest (by simp)

lemma firstTrue_isLeast {l : List Bool} {i : Nat} (h : firstTrue l = some i) :
    IsLeast {k | l.getD k false = true} i := by
  induction l generalizing i with
  | nil => simp [firstTrue] at h
  | cons b rest ih =>
    by_cases hb : b = true
    · simp [firstTrue, hb] at h
      subst h
      refine ⟨by simpa using hb, ?_⟩
      intro k _
      exact Nat.zero_le k
    · simp [firstTrue, hb] at h
      obtain ⟨j, hj, hij⟩ := h
      obtain ⟨hmem, hlb⟩ := ih hj
      subst hij
      constructor
      · simpa using hmem
      · intro k hk
        cases k with
        | zero =>
          simp only [Set.mem_setOf_eq, List.getD_cons_zero] at hk
          exact absurd hk hb
        | succ m =>
          simp only [Set.mem_setOf_eq, List.getD_cons_succ] at hk
          exact Nat.succ_le_succ (hlb hk)

lemma lastTrue_none_all_false {l : List Bool} (h : lastTrue l = none) (k : Nat) :
    l.getD k false = false := by
  induction l generalizing k with
  | nil => simp [List.getD]
  | cons b rest ih =>
    have hrest : lastTrue rest = none := by
      cases hr : lastTrue rest with
      | some i => simp [lastTrue, hr] at h
      | none => rfl
    have hb : b = false := by
      cases b with
      | false => rfl
      | true => simp [lastTrue, hrest] at h
    cases k with
    | zero => simpa [List.getD_cons_zero]
    | succ m => simpa [List.getD_cons_succ] using ih hrest m

lemma lastTrue_isGreatest {l : List Bool} {i : Nat} (h : lastTrue l = some i) :
    IsGreatest {k | l.getD k false = true} i := by
  induction l generalizing i with
  | nil => simp [lastTrue] at h
  | cons b rest ih =>
    cases hrest : lastTrue rest with
    | some j =>
      simp [lastTrue, hrest] at h
      subst h
      obtain ⟨hmem, hub⟩ := ih hrest
      constructor
      · simpa using hmem
      · intro k hk
        cases k with
        | zero => exact Nat.zero_le _
        | succ m =>
          simp only [Set.mem_setOf_eq, List.getD_cons_succ] at hk
          exact Nat.succ_le_succ (hub hk)
    | none =>
      have hb : b = true := by
        by_contra hb
        simp [lastTrue, hrest, hb] at h
      simp [lastTrue, hrest, hb] at h
      subst h
      constructor
      · simpa using hb
      · intro k hk
        cases k with
        | zero => exact Nat.le_refl 0
        | succ m =>
          simp only [Set.mem_setOf_eq, List.getD_cons_succ] at hk
          rw [lastTrue_none_all_false hrest m] at hk
          exact absurd hk (by simp)

lemma rowsAny_getD (mask : List (List Bool)) (i : Nat) :
    (rowsAny mask).getD i false = (mask.getD i []).any id := by
  induction mask generalizing i with
  | nil => simp [rowsAny, List.getD]
  | cons row rest ih =>
    cases i with
    | zero => simp [rowsAny]
    | succ m => simpa [rowsAny] using ih m

lemma colsAny_length (w : Nat) (mask : List (List Bool)) :
    (colsAny w mask).length = w := by
  simp [colsAny]

lemma colsAny_getD_lt {w j : Nat} (hj : j < w) (mask : List (List Bool)) :
    (colsAny w mask).getD j false = mask.any (fun row => row.getD j false) := by
  unfold colsAny
  rw [List.getD_eq_getElem?_getD, List.getElem?_map, List.getElem?_range hj]
  rfl

lemma rowsSet_eq (mask : List (List Bool)) :
    {i | (rowsAny mask).getD i false = true} = {i | (mask.getD i []).any id = true} := by
  ext i
  simp only [Set.mem_setOf_eq, rowsAny_getD]

lemma colsSet_eq {w : Nat} {mask : List (List Bool)}
    (hw : ∀ row ∈ mask, row.length = w) :
    {j | (colsAny w mask).getD j false = true}
      = {j | mask.any (fun row => row.getD j false) = true} := by
  ext j
  simp only [Set.mem_setOf_eq]
  constructor
  · intro h
    have hj : j < w := by
      have := getD_lt_length h
      rwa [colsAny_length] at this
    rwa [colsAny_getD_lt hj] at h
  · intro h
    have hj : j < w := by
      obtain ⟨row, hrow, hval⟩ := List.any_eq_true.mp h
      have := getD_lt_length hval
      rwa [hw row hrow] at this
    rwa [colsAny_getD_lt hj]

lemma rowsAny_any (mask : List (List Bool)) {i : Nat}
    (h : (mask.getD i []).any id = true) : (rowsAny mask).any id = true :=
  any_of_getD (by rwa [rowsAny_getD])

lemma colsAny_any {w : Nat} {mask : List (List Bool)} {j : Nat}
    (hw : ∀ row ∈ mask, row.length = w)
    (h : mask.any (fun row => row.getD j false) = true) :
    (colsAny w mask).any id = true := by
  have hj : j < w := by
    obtain ⟨row, hrow, hval⟩ := List.any_eq_true.mp h
    have := getD_lt_length hval
    rwa [hw row hrow] at this
  exact any_of_getD (by rwa [colsAny_getD_lt hj])

/-- C2. For every non-empty boolean mask over a `w × h` image,
`segment_with_sam2` derives its crop box by taking the least and greatest
row indices containing a `true` pixel as `ymin`/`ymax` and the least and
greatest column indices containing a `true` pixel as `xmin`/`xmax` (the
tightest axis-aligned bounding box of the `true` pixels), then pads each
side by 20 pixels, clamping the low edges at `0` and the high edges at the
image width/height. -/
theorem sam2_crop_is_padded_tight_bbox (w h : Nat) (mask : List (List Bool))
    (y0 y1 x0 x1 : Nat)
    (hw : ∀ row ∈ mask, row.length = w)
    (hy0 : IsLeast {i | (mask.getD i []).any id = true} y0)
    (hy1 : IsGreatest {i | (mask.getD i []).any id = true} y1)
    (hx0 : IsLeast {j | mask.any (fun row => row.getD j false) = true} x0)
    (hx1 : IsGreatest {j | mask.any (fun row => row.getD j false) = true} x1) :
    sam2CropBox w h mask
      = some (padClampBoxInt w h ⟨(x0 : Int), (y0 : Int), (x1 : Int), (y1 : Int)⟩) := by
  have hrany : (rowsAny mask).any id = true := rowsAny_any mask hy0.1
  have hcany : (colsAny w mask).any id = true := colsAny_any hw hx0.1
  obtain ⟨ry, hry⟩ := firstTrue_exists_of_any hrany
  obtain ⟨ry', hry'⟩ := lastTrue_exists_of_any hrany
  obtain ⟨cx, hcx⟩ := firstTrue_exists_of_any hcany
  obtain ⟨cx', hcx'⟩ := lastTrue_exists_of_any hcany
  have hryL : IsLeast {i | (mask.getD i []).any id = true} ry := by
    have := firstTrue_isLeast hry
    rwa [rowsSet_eq] at this
  have hryG : IsGreatest {i | (mask.getD i []).any id = true} ry' := by
    have := lastTrue_isGreatest hry'
    rwa [rowsSet_eq] at this
  have hcxL : IsLeast {j | mask.any (fun row => row.getD j false) = true} cx := by
    have := firstTrue_isLeast hcx
    rwa [colsSet_eq hw] at this
  have hcxG : IsGreatest {j | mask.any (fun row => row.getD j false) = true} cx' := by
    have := lastTrue_isGreatest hcx'
    rwa [colsSet_eq hw] at this
  have ey : ry = y0 := hryL.unique hy0
  have ey' : ry' = y1 := hryG.unique hy1
  have ex : cx = x0 := hcxL.unique hx0
  have ex' : cx' = x1 := hcxG.unique hx1
  subst ey ey' ex ex'
  unfold sam2CropBox
  simp only [hrany, hcany, Bool.and_self, if_true, hry, hry', hcx, hcx']

lemma rowsTrue_lt {mask : List (List Bool)} {i : Nat}
    (h : (mask.getD i []).any id = true) : i < mask.length := by
  by_contra hk
  rw [List.getD_eq_default _ _ (Nat.le_of_not_lt hk)] at h
  simp at h

lemma colsTrue_lt {w : Nat} {mask : List (List Bool)} {j : Nat}
    (hw : ∀ row ∈ mask, row.length = w)
    (h : mask.any (fun row => row.getD j false) = true) : j < w := by
  obtain ⟨row, hrow, hval⟩ := List.any_eq_true.mp h
  have := getD_lt_length hval
  rwa [hw row hrow] at this

/-- A concrete 3 × 4 mask whose `true` pixels span rows 1–2 and columns 1–2. -/
def witnessMask : List (List Bool) :=
  [[false, false, false, false],
   [false, true, true, false],
   [false, false, true, false]]

/-- Witness for C2: on `witnessMask` in a 4 × 3 image the derived crop box is
the 20-padded, clamped tightest bounding box of the `true` pixels. -/
theorem sam2_crop_is_padded_tight_bbox_witness :
    sam2CropBox 4 3 witnessMask
      = some (padClampBoxInt 4 3 ⟨(1 : Int), (1 : Int), (2 : Int), (2 : Int)⟩) := by
  apply sam2_crop_is_padded_tight_bbox 4 3 witnessMask 1 2 1 2
  · intro row hrow
    fin_cases hrow <;> rfl
  · refine ⟨by decide, ?_⟩
    intro k hk
    match k with
    | 0 => exact absurd hk (by decide)
    | n + 1 => omega
  · refine ⟨by decide, ?_⟩
    intro k hk
    have := rowsTrue_lt hk
    simp only [witnessMask, List.length_cons, List.length_nil] at this
    omega
  · refine ⟨by decide, ?_⟩
    intro k hk
    match k with
    | 0 => exact absurd hk (by decide)
    | n + 1 => omega
  · refine ⟨by decide, ?_⟩
    intro k hk
    have hk4 : k < 4 := colsTrue_lt (by intro row hrow; fin_cases hrow <;> rfl) hk
    match k with
    | 0 => omega
    | 1 => omega
    | 2 => omega
    | 3 => exact absurd hk (by decide)
    | n + 4 => omega

lemma firstTrue_le_lastTrue {l : List Bool} {i j : Nat}
    (hi : firstTrue l = some i) (hj : lastTrue l = some j) : i ≤ j :=
  (firstTrue_isLeast hi).2 (lastTrue_isGreatest hj).1

lemma lastTrue_lt_length {l : List Bool} {i : Nat} (h : lastTrue l = some i) :
    i < l.length :=
  getD_lt_length (lastTrue_isGreatest h).1

lemma rowsAny_length (mask : List (List Bool)) : (rowsAny mask).length = mask.length := by
  simp [rowsAny]

lemma sam2CropBox_inv {w h : Nat} {mask : List (List Bool)} {bx : IntBox}
    (hbx : sam2CropBox w h mask = some bx) :
    ∃ y0 y1 x0 x1 : Nat,
      firstTrue (rowsAny mask) = some y0 ∧ lastTrue (rowsAny mask) = some y1 ∧
      firstTrue (colsAny w mask) = some x0 ∧ lastTrue (colsAny w mask) = some x1 ∧
      bx = padClampBoxInt w h ⟨(x0 : Int), (y0 : Int), (x1 : Int), (y1 : Int)⟩ := by
  simp only [sam2CropBox] at hbx
  split at hbx
  · split at hbx
    next ymin ymax xmin xmax h1 h2 h3 h4 =>
      exact ⟨ymin, ymax, xmin, xmax, h1, h2, h3, h4, (Option.some_inj.mp hbx).symm⟩
    next => cases hbx
  · cases hbx

/-- C9 (amended). Whenever the detection box lies within the image (`0 ≤ xmin
≤ xmax ≤ w`, `0 ≤ ymin ≤ ymax ≤ h`), the 20-padded clamped box passed to
`Image.crop` by `crop_genitals` is well-formed and within the image; and the
box derived from any mask by `segment_with_sam2` is always well-formed and
within the image. (Unconditionally the claim is false: see the
counterexample.) -/
theorem crop_boxes_wellformed
    (w h : ℚ) (b : RatBox) (hb : WellFormedQ w h b)
    (wn hn : Nat) (mask : List (List Bool)) (bx : IntBox)
    (hmh : mask.length = hn) (hmw : ∀ row ∈ mask, row.length = wn)
    (hbx : sam2CropBox wn hn mask = some bx) :
    WellFormedQ w h (padClampBoxQ w h b) ∧ WellFormedInt (wn : Int) (hn : Int) bx := by
  constructor
  · obtain ⟨h1, h2, h3, h4, h5, h6⟩ := hb
    refine ⟨le_max_left _ _, ?_, min_le_left _ _, le_max_left _ _, ?_, min_le_left _ _⟩
    · exact max_le (le_min (by linarith) (by linarith)) (le_min (by linarith) (by linarith))
    · exact max_le (le_min (by linarith) (by linarith)) (le_min (by linarith) (by linarith))
  · obtain ⟨y0, y1, x0, x1, hy0, hy1, hx0, hx1, rfl⟩ := sam2CropBox_inv hbx
    have hyle : y0 ≤ y1 := firstTrue_le_lastTrue hy0 hy1
    have hxle : x0 ≤ x1 := firstTrue_le_lastTrue hx0 hx1
    have hylt : y1 < hn := by
      have := lastTrue_lt_length hy1
      rwa [rowsAny_length, hmh] at this
    have hxlt : x1 < wn := by
      have := lastTrue_lt_length hx1
      rwa [colsAny_length] at this
    have hy1i : (y1 : Int) < (hn : Int) := by exact_mod_cast hylt
    have hx1i : (x1 : Int) < (wn : Int) := by exact_mod_cast hxlt
    have hy0i : (y0 : Int) ≤ (y1 : Int) := by exact_mod_cast hyle
    have hx0i : (x0 : Int) ≤ (x1 : Int) := by exact_mod_cast hxle
    have hy0n : (0 : Int) ≤ (y0 : Int) := Int.ofNat_nonneg y0
    have hx0n : (0 : Int) ≤ (x0 : Int) := Int.ofNat_nonneg x0
    simp only [WellFormedInt, padClampBoxInt]
    refine ⟨le_max_left _ _, ?_, min_le_left _ _, le_max_left _ _, ?_, min_le_left _ _⟩
    · exact max_le (le_min (by omega) (by omega)) (le_min (by omega) (by omega))
    · exact max_le (le_min (by omega) (by omega)) (le_min (by omega) (by omega))

/-- C9 counterexample: for a detection box wholly outside a 100 × 100 image
(ordered box `(200, 200, 210, 210)`), the padded clamped box is malformed:
its `xmin` `180` exceeds its `xmax` `100`. -/
theorem padded_box_malformed :
    (200 : ℚ) ≤ 210 ∧
    ¬ WellFormedQ 100 100 (padClampBoxQ 100 100 ⟨200, 200, 210, 210⟩) := by
  refine ⟨by norm_num, ?_⟩
  intro hwf
  have h2 := hwf.2.1
  rw [padClampBoxQ] at h2
  norm_num at h2

/-- Witness for C9: a box inside a 100 × 100 image and the `witnessMask`
crop box, both well-formed after padding. -/
theorem crop_boxes_wellformed_witness :
    WellFormedQ 100 100 (padClampBoxQ 100 100 ⟨10, 10, 50, 50⟩) ∧
    WellFormedInt ((4 : Nat) : Int) ((3 : Nat) : Int)
      ⟨(0 : Int), (0 : Int), (4 : Int), (3 : Int)⟩ :=
  crop_boxes_wellformed 100 100 ⟨10, 10, 50, 50⟩
    (by refine ⟨?_, ?_, ?_, ?_, ?_, ?_⟩ <;> norm_num)
    4 3 witnessMask ⟨0, 0, 4, 3⟩ rfl
    (by intro row hrow; fin_cases hrow <;> rfl)
    (by decide)

/-- C5 (amended). For every label whose (shuffled) eligible-file list is a
permutation of the original and every split ratio `0 ≤ r ≤ 1`, the split
copies exactly `⌊n·r⌋` files into the train side and the remaining
`n − ⌊n·r⌋` into the test side, the two sides together are a permutation of
the eligible files, and (files being distinct) every eligible file lands on
exactly one side. (For ratios above 1 the claimed train count `⌊n·r⌋` is
wrong: see the counterexample.) -/
theorem split_dataset_partition (α : Type) (items shuffled : List α)
    (r : ℚ) (x : α)
    (hperm : shuffled.Perm items) (h0 : 0 ≤ r) (h1 : r ≤ 1)
    (hnd : items.Nodup) (hx : x ∈ items) :
    (splitLabelItems shuffled r).1.length = (⌊(items.length : ℚ) * r⌋).toNat ∧
    (splitLabelItems shuffled r).2.length
      = items.length - (⌊(items.length : ℚ) * r⌋).toNat ∧
    ((splitLabelItems shuffled r).1 ++ (splitLabelItems shuffled r).2).Perm items ∧
    ((x ∈ (splitLabelItems shuffled r).1 ∧ x ∉ (splitLabelItems shuffled r).2) ∨
     (x ∈ (splitLabelItems shuffled r).2 ∧ x ∉ (splitLabelItems shuffled r).1)) := by
  have hlen : shuffled.length = items.length := hperm.length_eq
  have hq0 : (0 : ℚ) ≤ (items.length : ℚ) * r := mul_nonneg (by positivity) h0
  have htr : pyIntTrunc ((shuffled.length : ℚ) * r) = ⌊(items.length : ℚ) * r⌋ := by
    rw [hlen, pyIntTrunc, if_neg (not_lt.mpr hq0)]
  have hk0 : 0 ≤ ⌊(items.length : ℚ) * r⌋ := Int.le_floor.mpr (by exact_mod_cast hq0)
  have hkn : ⌊(items.length : ℚ) * r⌋ ≤ (items.length : Int) := by
    have h1' : (items.length : ℚ) * r ≤ (items.length : ℚ) :=
      mul_le_of_le_one_right (by positivity) h1
    have := Int.floor_le_floor h1'
    rwa [Int.floor_natCast] at this
  have hkn' : (⌊(items.length : ℚ) * r⌋).toNat ≤ shuffled.length := by
    rw [hlen]; exact Int.toNat_le.mpr hkn
  have hidx : pySliceIdx shuffled.length (pyIntTrunc ((shuffled.length : ℚ) * r))
      = (⌊(items.length : ℚ) * r⌋).toNat := by
    rw [htr, pySliceIdx, if_pos hk0]
  have hsplit : splitLabelItems shuffled r
      = (shuffled.take (⌊(items.length : ℚ) * r⌋).toNat,
         shuffled.drop (⌊(items.length : ℚ) * r⌋).toNat) := by
    simp only [splitLabelItems, pySliceTo, pySliceFrom, hidx]
  rw [hsplit]
  have happ := List.take_append_drop (⌊(items.length : ℚ) * r⌋).toNat shuffled
  have hpermTD : (shuffled.take (⌊(items.length : ℚ) * r⌋).toNat
      ++ shuffled.drop (⌊(items.length : ℚ) * r⌋).toNat).Perm items := by
    rw [happ]; exact hperm
  refine ⟨?_, ?_, hpermTD, ?_⟩
  · rw [List.length_take]
    exact Nat.min_eq_left hkn'
  · rw [List.length_drop, hlen]
  · have hndS : shuffled.Nodup := hperm.nodup_iff.mpr hnd
    have hndTD : (shuffled.take (⌊(items.length : ℚ) * r⌋).toNat
        ++ shuffled.drop (⌊(items.length : ℚ) * r⌋).toNat).Nodup := by
      rw [happ]; exact hndS
    have hdisj := (List.nodup_append.mp hndTD).2.2
    have hxS : x ∈ shuffled.take (⌊(items.length : ℚ) * r⌋).toNat
        ++ shuffled.drop (⌊(items.length : ℚ) * r⌋).toNat := hpermTD.mem_iff.mpr hx
    rcases List.mem_append.mp hxS with hmem | hmem
    · exact Or.inl ⟨hmem, fun hc => hdisj hmem hc⟩
    · refine Or.inr ⟨hmem, fun hc => hdisj hc hmem⟩

/-- C5 counterexample: with split ratio `2` and one eligible file, the claim
says `⌊1·2⌋ = 2` files are copied into the train side, but only `1` is. -/
theorem split_dataset_ratio_cex :
    (splitLabelItems [(0 : Nat)] 2).1.length = 1 ∧
    (⌊((List.length [(0 : Nat)] : ℚ)) * 2⌋).toNat = 2 ∧ (1 : Nat) ≠ 2 := by
  refine ⟨?_, ?_, by decide⟩
  · have h2 : pyIntTrunc ((List.length [(0 : Nat)] : ℚ) * 2) = 2 := by
      rw [pyIntTrunc, if_neg (by norm_num)]
      norm_num
    simp only [splitLabelItems, pySliceTo, pySliceIdx, h2]
    rfl
  · have h : ⌊((List.length [(0 : Nat)] : ℚ)) * 2⌋ = 2 := by norm_num
    rw [h]; rfl

/-- Witness for C5: items `[0,1,2]` shuffled to `[2,0,1]`, ratio `1/2`,
tracking file `1`. -/
theorem split_dataset_partition_witness :
    (splitLabelItems [(2 : Nat), 0, 1] (1/2)).1.length
      = (⌊((List.length [(0 : Nat), 1, 2]) : ℚ) * (1/2)⌋).toNat ∧
    (splitLabelItems [(2 : Nat), 0, 1] (1/2)).2.length
      = (List.length [(0 : Nat), 1, 2])
        - (⌊((List.length [(0 : Nat), 1, 2]) : ℚ) * (1/2)⌋).toNat ∧
    ((splitLabelItems [(2 : Nat), 0, 1] (1/2)).1
      ++ (splitLabelItems [(2 : Nat), 0, 1] (1/2)).2).Perm [0, 1, 2] ∧
    ((1 ∈ (splitLabelItems [(2 : Nat), 0, 1] (1/2)).1
        ∧ 1 ∉ (splitLabelItems [(2 : Nat), 0, 1] (1/2)).2) ∨
     (1 ∈ (splitLabelItems [(2 : Nat), 0, 1] (1/2)).2
        ∧ 1 ∉ (splitLabelItems [(2 : Nat), 0, 1] (1/2)).1)) :=
  split_dataset_partition Nat [0, 1, 2] [2, 0, 1] (1/2) 1
    (by decide) (by norm_num) (by norm_num) (by decide) (by decide)

lemma parse_label_go_mem (parts : List String) :
    parse_label_go parts ∈ ["PROESTRUS", "ESTRUS", "METESTRUS", "DIESTRUS", "UNKNOWN"] := by
  induction parts with
  | nil => simp [parse_label_go]
  | cons p rest ih =>
    simp only [parse_label_go]
    by_cases h : valid_stages.contains (fixTypo (pyUpper p)) = true
    · rw [if_pos h]
      have hmem : fixTypo (pyUpper p) ∈ valid_stages := by
        simpa using h
      simp only [valid_stages, List.mem_cons, List.mem_singleton] at hmem
      rcases hmem with h1 | h1 | h1 | h1 | h1
      · simp [h1]
      · simp [h1]
      · simp [h1]
      · simp [h1]
      · simp at h1
    · rw [if_neg h]
      exact ih

lemma parse_label_go_eq_find (parts : List String) :
    parse_label_go parts =
      (match parts.find? (fun p => valid_stages.contains (fixTypo (pyUpper p))) with
       | some p => fixTypo (pyUpper p)
       | none => "UNKNOWN") := by
  induction parts with
  | nil => rfl
  | cons p rest ih =>
    simp only [parse_label_go]
    by_cases h : valid_stages.contains (fixTypo (pyUpper p)) = true
    · rw [if_pos h]
      simp only [List.find?_cons, h]
    · have hf : valid_stages.contains (fixTypo (pyUpper p)) = false := by
        simpa using h
      rw [if_neg h]
      simp only [List.find?_cons, hf]
      exact ih

/-- C8. `parse_label` always returns one of the four stages or `"UNKNOWN"`,
and its value is determined by the first underscore/dot-separated part whose
upper-cased form (with the `PROESTTRUS` typo corrected) is a valid stage,
`"UNKNOWN"` when no part matches. -/
theorem parse_label_complete (filename : String) :
    parse_label filename ∈ ["PROESTRUS", "ESTRUS", "METESTRUS", "DIESTRUS", "UNKNOWN"] ∧
    parse_label filename =
      (match ((filename.replace "." "_").splitOn "_").find?
          (fun p => valid_stages.contains (fixTypo (pyUpper p))) with
       | some p => fixTypo (pyUpper p)
       | none => "UNKNOWN") :=
  ⟨parse_label_go_mem _, parse_label_go_eq_find _⟩

/-! ## Concrete oracles used by the witnesses -/

/-- Trivial image operations on the one-point image type. -/
def unitImgOps : ImgOps Unit := ⟨fun _ _ => (), fun _ => ()⟩

/-- Concrete ML oracles on the one-point image type: decoding always
succeeds, segmentation finds nothing. -/
def unitOracles : MLOracles Unit :=
  { decode := fun _ => some ()
    segment := fun _ => none
    embed := fun _ => [1]
    probeStage := fun _ => "diestrus"
    probeProba := fun _ => [("diestrus", 1)] }

/-- Server state with every model loaded and the linear probe enabled. -/
def allLoadedState : ServerState := ⟨true, true, true, true⟩

/-- C3. With the models loaded, `/embed` returns the BioCLIP embedding of the
uploaded image after the attempted segmentation crop, and `/classify`
(linear probe enabled, classifier loaded) returns the stage and per-class
confidence scores obtained by segmenting, embedding, then classifying with
the linear probe. -/
theorem endpoints_pipeline (Img : Type) (st : ServerState) (o : MLOracles Img)
    (contents : List Nat) (image : Img)
    (hmodel : st.bioclipModel = true) (hpre : st.bioclipPreprocess = true)
    (hdec : o.decode contents = some image)
    (hlp : st.useLinearProbe = true) (hcl : st.classifierLoaded = true) :
    (generate_embedding st o contents).1
      = .ok (o.embed ((o.segment image).getD image)) ∧
    (classify_image st o contents).1
      = .ok ⟨pyCapitalize (o.probeStage (o.embed ((o.segment image).getD image))),
             (o.probeProba (o.embed ((o.segment image).getD image))).map
               (fun p => (pyCapitalize p.1, p.2)),
             (o.segment image).isSome⟩ := by
  cases hseg : o.segment image with
  | none =>
    constructor
    · simp [generate_embedding, hmodel, hpre, hdec, hseg]
    · simp [classify_image, classify_with_linear_probe, hmodel, hpre, hlp, hcl, hdec, hseg]
  | some c =>
    constructor
    · simp [generate_embedding, hmodel, hpre, hdec, hseg]
    · simp [classify_image, classify_with_linear_probe, hmodel, hpre, hlp, hcl, hdec, hseg]

/-- Witness for C3: the concrete loaded server on the one-point image. -/
theorem endpoints_pipeline_witness :
    (generate_embedding allLoadedState unitOracles []).1
      = .ok (unitOracles.embed ((unitOracles.segment ()).getD ())) ∧
    (classify_image allLoadedState unitOracles []).1
      = .ok ⟨pyCapitalize (unitOracles.probeStage
               (unitOracles.embed ((unitOracles.segment ()).getD ()))),
             (unitOracles.probeProba
               (unitOracles.embed ((unitOracles.segment ()).getD ()))).map
               (fun p => (pyCapitalize p.1, p.2)),
             (unitOracles.segment ()).isSome⟩ :=
  endpoints_pipeline Unit allLoadedState unitOracles [] () rfl rfl rfl rfl rfl

/-- C10 (amended). Provided the BioCLIP model is loaded, `/classify` fails
with 400 when the linear probe is disabled and with 503 when no classifier
is loaded, in both cases performing no work on the uploaded file (empty
effect trace: the file is neither read nor decoded, and no segmentation or
embedding runs). Without the BioCLIP proviso the claim is false: see the
counterexample. -/
theorem classify_fails_fast (Img : Type) (st : ServerState) (o : MLOracles Img)
    (contents : List Nat)
    (hmodel : st.bioclipModel = true) (hpre : st.bioclipPreprocess = true) :
    (st.useLinearProbe = false →
      classify_image st o contents
        = (.error ⟨400, "Linear Probe disabled. Use /embed endpoint for k-NN classification."⟩,
           [])) ∧
    (st.useLinearProbe = true → st.classifierLoaded = false →
      classify_image st o contents
        = (.error ⟨503, "Classifier not loaded. Run train_classifier.py first."⟩, [])) := by
  constructor
  · intro hlp
    simp [classify_image, hmodel, hpre, hlp]
  · intro hlp hcl
    simp [classify_image, hmodel, hpre, hlp, hcl]

/-- C10 counterexample: with the BioCLIP model not loaded and the linear
probe disabled, `/classify` fails with 503 (model not initialized), not
400. -/
theorem classify_fails_fast_cex :
    (⟨false, true, false, false⟩ : ServerState).useLinearProbe = false ∧
    (classify_image ⟨false, true, false, false⟩ unitOracles []).1
      = .error ⟨503, "BioCLIP model not initialized"⟩ ∧
    (503 : Nat) ≠ 400 :=
  ⟨rfl, rfl, by decide⟩

/-- Witness for C10: the two failure modes at a concrete state. -/
theorem classify_fails_fast_witness :
    classify_image ⟨true, true, false, false⟩ unitOracles ([] : List Nat)
      = (.error ⟨400, "Linear Probe disabled. Use /embed endpoint for k-NN classification."⟩,
         []) ∧
    classify_image ⟨true, true, true, false⟩ unitOracles ([] : List Nat)
      = (.error ⟨503, "Classifier not loaded. Run train_classifier.py first."⟩, []) :=
  ⟨(classify_fails_fast Unit ⟨true, true, false, false⟩ unitOracles [] rfl rfl).1 rfl,
   (classify_fails_fast Unit ⟨true, true, true, false⟩ unitOracles [] rfl rfl).2 rfl rfl⟩

/-- C1. Segmentation failures never abort a batch or drop data silently:
the `crop_genitals` loop yields one action per file; a file with no
detection has its original image saved unchanged; a per-file exception is
caught and printed; in `/embed` and `/classify` a `None` from
`segment_image` makes the embedding be computed on the original image; and
in `ingest` a failed embedding inserts no database row. -/
theorem segmentation_failure_fallbacks (Img : Type) (ops : ImgOps Img)
    (files : List (String × OwlOutcome Img)) (fname msg : String) (image : Img)
    (w h : ℚ) (st : ServerState) (o : MLOracles Img) (contents : List Nat)
    (image2 : Img) (label f2 p2 : String)
    (hmodel : st.bioclipModel = true) (hpre : st.bioclipPreprocess = true)
    (hlp : st.useLinearProbe = true) (hcl : st.classifierLoaded = true)
    (hdec : o.decode contents = some image2) (hseg : o.segment image2 = none) :
    (cropGenitalsLoop ops files).length = files.length ∧
    cropGenitalsFile ops fname (.detections image w h []) = .savedFile image fname ∧
    cropGenitalsFile ops fname (.raised msg)
      = .printedError ("Error processing " ++ fname ++ ": " ++ msg) ∧
    (generate_embedding st o contents).1 = .ok (o.embed image2) ∧
    (classify_image st o contents).1
      = .ok ⟨pyCapitalize (o.probeStage (o.embed image2)),
             (o.probeProba (o.embed image2)).map (fun p => (pyCapitalize p.1, p.2)),
             false⟩ ∧
    ingestFileRow label f2 p2 none = none := by
  refine ⟨?_, ?_, rfl, ?_, ?_, rfl⟩
  · simp [cropGenitalsLoop]
  · simp [cropGenitalsFile]
  · simp [generate_embedding, hmodel, hpre, hdec, hseg]
  · simp [classify_image, classify_with_linear_probe, hmodel, hpre, hlp, hcl, hdec, hseg]

/-- Witness for C1: concrete one-point instantiation with a raising file, a
no-detection file and a failed embedding. -/
theorem segmentation_failure_fallbacks_witness :
    (cropGenitalsLoop unitImgOps
        [("a.jpg", (.raised "boom" : OwlOutcome Unit))]).length
      = [("a.jpg", (.raised "boom" : OwlOutcome Unit))].length ∧
    cropGenitalsFile unitImgOps "img.jpg" (.detections () 100 80 [])
      = .savedFile () "img.jpg" ∧
    cropGenitalsFile unitImgOps "img.jpg" (.raised "oops")
      = .printedError ("Error processing " ++ "img.jpg" ++ ": " ++ "oops") ∧
    (generate_embedding allLoadedState unitOracles []).1
      = .ok (unitOracles.embed ()) ∧
    (classify_image allLoadedState unitOracles []).1
      = .ok ⟨pyCapitalize (unitOracles.probeStage (unitOracles.embed ())),
             (unitOracles.probeProba (unitOracles.embed ())).map
               (fun p => (pyCapitalize p.1, p.2)),
             false⟩ ∧
    ingestFileRow "ESTRUS" "f.jpg" "d/f.jpg" none = none :=
  segmentation_failure_fallbacks Unit unitImgOps
    [("a.jpg", .raised "boom")] "img.jpg" "oops" () 100 80
    allLoadedState unitOracles [] () "ESTRUS" "f.jpg" "d/f.jpg"
    rfl rfl rfl rfl rfl rfl

/-- C4. `segment_with_sam3_cloud` issues at most one POST request, and it
returns an image exactly when it reports no error: every failure path
(missing configuration, non-200 status, response parse failure, timeout,
connection error) yields `(none, some message)` without re-issuing the
request; being a total function of its environment, it raises nothing to
its caller. -/
theorem sam3_cloud_single_request (Img : Type) (timeout : Nat) (env : Sam3Env Img) :
    (segment_with_sam3_cloud timeout env).2 ≤ 1 ∧
    ((segment_with_sam3_cloud timeout env).1.1.isSome
      ↔ (segment_with_sam3_cloud timeout env).1.2 = none) := by
  rcases env with ⟨url, tok, post⟩
  cases url with
  | none => simp [segment_with_sam3_cloud]
  | some u =>
    cases tok with
    | none => simp [segment_with_sam3_cloud]
    | some t =>
      cases post with
      | encodeException m => simp [segment_with_sam3_cloud]
      | timeoutExc => simp [segment_with_sam3_cloud]
      | connectionError => simp [segment_with_sam3_cloud]
      | otherException m => simp [segment_with_sam3_cloud]
      | response r =>
        rcases r with ⟨status, ci, js, tx⟩
        by_cases h200 : status = 200
        · subst h200
          cases ci with
          | ok img => simp [segment_with_sam3_cloud]
          | error e =>
            cases js with
            | parseFail => simp [segment_with_sam3_cloud]
            | dict iv ev rep =>
              cases iv with
              | none => simp [segment_with_sam3_cloud]
              | some d =>
                cases d with
                | none => simp [segment_with_sam3_cloud]
                | some img => simp [segment_with_sam3_cloud]
        · by_cases h503 : status = 503
          · simp [segment_with_sam3_cloud, h200, h503]
          · by_cases h404 : status = 404
            · simp [segment_with_sam3_cloud, h200, h503, h404]
            · cases js with
              | parseFail => simp [segment_with_sam3_cloud, h200, h503, h404]
              | dict iv ev rep => simp [segment_with_sam3_cloud, h200, h503, h404]

lemma processZipEntry_raised (Img : Type) (ops : ImgOps Img) (label file msg : String) :
    processZipEntry ops label file (.raised msg) = none := by
  by_cases h1 : pyStartswith file "._"
  · simp [processZipEntry, h1]
  · by_cases h2 : isConvertibleImage file
    · simp [processZipEntry, h1, h2]
    · simp [processZipEntry, h1, h2]

/-- C6. A zip entry with a convertible image extension (case-insensitive)
not starting with `._` is saved as a JPEG named by its stem plus `.jpg` in
the subdirectory named by the upper-cased zip basename, converted to RGB
when its mode differs; an entry whose conversion raises contributes no file
and does not stop the processing of the remaining entries. -/
theorem process_zips_spec (Img : Type) (ops : ImgOps Img)
    (zip_name file : String) (img : Img) (mode msg : String)
    (es1 es2 : List (String × ConvertOutcome Img))
    (hno : pyStartswith file "._" = false)
    (hext : isConvertibleImage file = true) :
    processZipEntry ops (pyUpper (splitextRoot zip_name)) file (.opened img mode)
      = some ⟨pyUpper (splitextRoot zip_name), splitextRoot file ++ ".jpg",
              if mode ≠ "RGB" then ops.convertRGB img else img⟩ ∧
    processZipFiles ops zip_name (es1 ++ (file, .raised msg) :: es2)
      = processZipFiles ops zip_name es1 ++ processZipFiles ops zip_name es2 := by
  constructor
  · simp [processZipEntry, hno, hext]
  · simp [processZipFiles, List.filterMap_append, List.filterMap_cons,
      processZipEntry_raised]

/-- Witness for C6: an upper-case HEIC entry of `estrus.zip` in RGB mode,
next to one raising entry. -/
theorem process_zips_spec_witness :
    processZipEntry unitImgOps (pyUpper (splitextRoot "estrus.zip")) "IMG_001.HEIC"
        (.opened () "RGB")
      = some ⟨pyUpper (splitextRoot "estrus.zip"), splitextRoot "IMG_001.HEIC" ++ ".jpg",
              if "RGB" ≠ "RGB" then unitImgOps.convertRGB () else ()⟩ ∧
    processZipFiles unitImgOps "estrus.zip" ([] ++ ("IMG_001.HEIC", .raised "bad") :: [])
      = processZipFiles unitImgOps "estrus.zip" [] ++ processZipFiles unitImgOps "estrus.zip" [] :=
  process_zips_spec Unit unitImgOps "estrus.zip" "IMG_001.HEIC" () "RGB" "bad" [] []
    (by decide) (by decide)

/-- C7 (amended). The logistic-regression training/inference in
`train_classifier.py` and both classifiers of `run_comparison_eval` in
`sam3_modal.py` call only into scikit-learn, but the k-NN classification of
`eval.py` (`classify_with_knn`) is performed by the Supabase
`match_reference_images` RPC plus a local Python majority vote, with no
scikit-learn call. -/
theorem classifier_backends (rpc : RpcOutcome) :
    train_classifier_calls.all MLCall.isSklearn = true ∧
    evaluate_method_calls.all MLCall.isSklearn = true ∧
    (classify_with_knn rpc).2 = [.supabaseRpc "match_reference_images"] ∧
    (classify_with_knn rpc).2.any MLCall.isSklearn = false := by
  refine ⟨rfl, rfl, ?_, ?_⟩
  · cases rpc with
    | raised m => rfl
    | rows ns => by_cases h : ns = [] <;> simp [classify_with_knn, h]
  · cases rpc with
    | raised m => rfl
    | rows ns => by_cases h : ns = [] <;> simp [classify_with_knn, h, MLCall.isSklearn]

/-- C7 counterexample: on a concrete neighbor list the k-NN classification
of `eval.py` is computed by the Supabase RPC and a local vote — a k-NN
inference in the repository with no scikit-learn call. -/
theorem knn_not_sklearn_cex :
    (classify_with_knn (.rows ["estrus", "estrus", "proestrus"])).1 = "ESTRUS" ∧
    (classify_with_knn (.rows ["estrus", "estrus", "proestrus"])).2
      = [.supabaseRpc "match_reference_images"] ∧
    MLCall.isSklearn (.supabaseRpc "match_reference_images") = false := by
  refine ⟨?_, rfl, rfl⟩
  decide

end EstrusLog
